import Mathlib

/-!
Shallow embedding of the Redis-backed job queue subsystem of the `golib`
repository (`pkg/queue`, together with the collaborating `pkg/observer`
publish/subscribe utility and the `pkg/redis` client singleton), and proofs
checking the natural-language specification against it.

Conventions of the embedding:

* Go pointers to the generic payload type `T` are modelled as `Option` values
  (`none` is a nil pointer); the payload universe `GoValue` contains values
  `encoding/json` can encode (integers, matching the spec's scenario payload
  `\x7bid:1\x7d`) and a value it cannot encode (a channel).
* The external `encoding/json` codec and the `gocraft/work` enqueuer are not
  part of the repository; they are modelled at the interface boundary the
  spec gives for them (stable lossless decimal/JSON encoding failing on
  unsupported types; a store push that appends an envelope and fails only on
  connectivity, with unique-key suppression for `EnqueueUnique`).
* Process-global singletons guarded by `sync.Once` are modelled by explicit
  state records threaded through the functions that touch them.
* Goroutines spawned by `Notify` are modelled as the list of protected tasks
  the loop launches, each carrying the outcome of its `recover` boundary.
-/

/-! ## Decimal rendering and parsing of integers

Models the decimal integer encoding `encoding/json` (via `strconv`) uses for
the payload universe's integer values. The renderer is written with explicit
fuel so that it is structurally recursive and evaluates inside `decide`. -/

/-- Test for an ASCII decimal digit character. -/
def isDigitChar (c : Char) : Bool := '0' ≤ c && c ≤ '9'

/-- Numeric value of an ASCII digit character. -/
def charVal (c : Char) : Nat := c.toNat - 48

/-- Fuel-driven accumulator loop producing the big-endian decimal digits of
`n` in front of `acc`; `Nat.digitChar` maps a digit value to its character. -/
def natCharsAux : Nat → Nat → List Char → List Char
  | 0, _, acc => acc
  | fuel + 1, n, acc =>
    if n < 10 then Nat.digitChar n :: acc
    else natCharsAux fuel (n / 10) (Nat.digitChar (n % 10) :: acc)

/-- Big-endian decimal digit characters of a natural number. -/
def natChars (n : Nat) : List Char := natCharsAux (n + 1) n []

/-- Decimal character rendering of an integer, with a leading sign for
negative values. -/
def intRenderChars : Int → List Char
  | Int.ofNat n => natChars n
  | Int.negSucc m => '-' :: natChars (m + 1)

/-- Decimal string rendering of an integer. -/
def intRender (n : Int) : String := ⟨intRenderChars n⟩

/-- Parse a non-empty all-digit character list as a natural number. -/
def parseNatChars (cs : List Char) : Option Nat :=
  if !cs.isEmpty && cs.all isDigitChar then
    some (cs.foldl (fun a c => a * 10 + charVal c) 0)
  else none

/-- Parse a decimal integer with an optional leading sign. -/
def parseIntChars : List Char → Option Int
  | '-' :: rest => (parseNatChars rest).map (fun n => -(n : Int))
  | cs => (parseNatChars cs).map (fun n => (n : Int))

theorem digitChar_spec {d : Nat} (h : d < 10) :
    isDigitChar (Nat.digitChar d) = true ∧ charVal (Nat.digitChar d) = d := by
  interval_cases d <;> exact ⟨by decide, by decide⟩

theorem isDigitChar_ne_dash {c : Char} (h : isDigitChar c = true) : c ≠ '-' := by
  rintro rfl; exact absurd h (by decide)

theorem isDigitChar_ne_n {c : Char} (h : isDigitChar c = true) : c ≠ 'n' := by
  rintro rfl; exact absurd h (by decide)

theorem natCharsAux_append (fuel : Nat) :
    ∀ (n : Nat) (acc : List Char),
      natCharsAux fuel n acc = natCharsAux fuel n [] ++ acc := by
  induction fuel with
  | zero => intro n acc; simp [natCharsAux]
  | succ fuel ih =>
    intro n acc
    by_cases h : n < 10
    · simp [natCharsAux, h]
    · simp only [natCharsAux, if_neg h]
      rw [ih (n / 10) (Nat.digitChar (n % 10) :: acc),
        ih (n / 10) [Nat.digitChar (n % 10)], List.append_assoc]
      rfl

theorem natCharsAux_fuel_irrel (n : Nat) :
    ∀ f₁ f₂ : Nat, n < f₁ → n < f₂ →
      natCharsAux f₁ n [] = natCharsAux f₂ n [] := by
  induction n using Nat.strong_induction_on with
  | _ n ih =>
    intro f₁ f₂ h₁ h₂
    match f₁, f₂ with
    | a + 1, b + 1 =>
      by_cases h : n < 10
      · simp [natCharsAux, h]
      · simp only [natCharsAux, if_neg h]
        have hn : 0 < n := by omega
        have hdiv : n / 10 < n := Nat.div_lt_self hn (by omega)
        rw [natCharsAux_append a, natCharsAux_append b,
          ih (n / 10) hdiv a b (by omega) (by omega)]

theorem natChars_eq_of_ge (n : Nat) (h : 10 ≤ n) :
    natChars n = natChars (n / 10) ++ [Nat.digitChar (n % 10)] := by
  have h10 : ¬ n < 10 := by omega
  have hdiv : n / 10 < n := Nat.div_lt_self (by omega) (by omega)
  calc natChars n
      = natCharsAux n (n / 10) [Nat.digitChar (n % 10)] := by
        simp [natChars, natCharsAux, h10]
    _ = natCharsAux n (n / 10) [] ++ [Nat.digitChar (n % 10)] :=
        natCharsAux_append n _ _
    _ = natChars (n / 10) ++ [Nat.digitChar (n % 10)] := by
        rw [natCharsAux_fuel_irrel (n / 10) n (n / 10 + 1) (by omega) (by omega)]
        rfl

theorem natChars_all_digits (n : Nat) :
    (natChars n).all isDigitChar = true := by
  induction n using Nat.strong_induction_on with
  | _ n ih =>
    by_cases h : n < 10
    · have : natChars n = [Nat.digitChar n] := by simp [natChars, natCharsAux, h]
      rw [this]
      simp [(digitChar_spec h).1]
    · rw [natChars_eq_of_ge n (by omega), List.all_append]
      have hdiv : n / 10 < n := Nat.div_lt_self (by omega) (by omega)
      rw [ih (n / 10) hdiv]
      simp [(digitChar_spec (Nat.mod_lt n (show 0 < 10 by omega))).1]

theorem natChars_ne_nil (n : Nat) : natChars n ≠ [] := by
  by_cases h : n < 10
  · simp [natChars, natCharsAux, h]
  · rw [natChars_eq_of_ge n (by omega)]
    simp

theorem natChars_foldl (n : Nat) :
    ∀ a : Nat, ∃ k : Nat,
      (natChars n).foldl (fun a c => a * 10 + charVal c) a = a * 10 ^ k + n := by
  induction n using Nat.strong_induction_on with
  | _ n ih =>
    intro a
    by_cases h : n < 10
    · have : natChars n = [Nat.digitChar n] := by simp [natChars, natCharsAux, h]
      refine ⟨1, ?_⟩
      rw [this]
      simp [List.foldl, (digitChar_spec h).2]
    · have hdiv : n / 10 < n := Nat.div_lt_self (by omega) (by omega)
      obtain ⟨k, hk⟩ := ih (n / 10) hdiv a
      refine ⟨k + 1, ?_⟩
      rw [natChars_eq_of_ge n (by omega), List.foldl_append, hk]
      simp only [List.foldl]
      rw [(digitChar_spec (Nat.mod_lt n (show 0 < 10 by omega))).2]
      have := Nat.div_add_mod n 10
      ring_nf
      omega

theorem parseNatChars_natChars (n : Nat) : parseNatChars (natChars n) = some n := by
  obtain ⟨k, hk⟩ := natChars_foldl n 0
  rw [Nat.zero_mul, Nat.zero_add] at hk
  have hne : (natChars n).isEmpty = false := by
    cases h : natChars n with
    | nil => exact absurd h (natChars_ne_nil n)
    | cons c cs => rfl
  simp [parseNatChars, hne, natChars_all_digits n, hk]

theorem parseIntChars_natChars (n : Nat) :
    parseIntChars (natChars n) = some (n : Int) := by
  obtain ⟨c, cs, hcons⟩ := List.exists_cons_of_ne_nil (natChars_ne_nil n)
  have hdig : isDigitChar c = true := by
    have := natChars_all_digits n
    rw [hcons, List.all_cons] at this
    exact (Bool.and_eq_true_iff.mp this).1
  have hc : c ≠ '-' := isDigitChar_ne_dash hdig
  rw [hcons, parseIntChars]
  · rw [← hcons, parseNatChars_natChars n]
    rfl
  · intro m heq
    exact absurd (List.head_eq_of_cons_eq heq) hc

theorem parseIntChars_intRenderChars (x : Int) :
    parseIntChars (intRenderChars x) = some x := by
  cases x with
  | ofNat n => exact parseIntChars_natChars n
  | negSucc m =>
    show parseIntChars ('-' :: natChars (m + 1)) = some (Int.negSucc m)
    rw [parseIntChars, parseNatChars_natChars (m + 1)]
    simp [Int.negSucc_eq]

theorem intRenderChars_ne_null (x : Int) :
    intRenderChars x ≠ ['n', 'u', 'l', 'l'] := by
  cases x with
  | ofNat n =>
    intro h
    have hall := natChars_all_digits n
    show False
    rw [show natChars n = intRenderChars (Int.ofNat n) from rfl, h] at hall
    exact absurd hall (by decide)
  | negSucc m =>
    intro h
    have : '-' = 'n' := List.head_eq_of_cons_eq h
    exact absurd this (by decide)

/-! ## Payload universe and the `encoding/json` boundary

The dispatcher and the worker are generic in a payload type `T`; the
embedding instantiates `T` with a universe `GoValue` holding an integer case
(the kind of payload the spec's scenarios use) and a channel case, which
`encoding/json` cannot encode. A Go pointer `*T` is `Option GoValue`, with
`none` the nil pointer, which `encoding/json` encodes as `null`. -/

/-- Payload universe for the generic type parameter `T`: an integer value or
a channel value (unsupported by the JSON encoder). -/
inductive GoValue
  | jint (n : Int)
  | chanV
deriving DecidableEq, Repr

/-- Models the external `encoding/json` encoder at the spec's interface
boundary: a stable, lossless encoding; a nil pointer encodes as `null`,
integers in decimal, and a channel value is rejected with an
`UnsupportedTypeError` (returning nil bytes together with the error). -/
def jsonMarshal : Option GoValue → Except String String
  | none => .ok "null"
  | some (.jint n) => .ok (intRender n)
  | some .chanV => .error "json: unsupported type: chan"

/-- Models the external `encoding/json` decoder at the spec's interface
boundary: the exact inverse of `jsonMarshal` on its image, failing on the
empty input and on any text that is neither `null` nor a decimal integer. -/
def jsonUnmarshal (s : String) : Except String (Option GoValue) :=
  if s = "null" then .ok none
  else
    match parseIntChars s.data with
    | some n => .ok (some (.jint n))
    | none =>
      if s = "" then .error "unexpected end of JSON input"
      else .error ("invalid character in JSON payload: " ++ s)

theorem intRender_ne_null (x : Int) : intRender x ≠ "null" := by
  intro h
  have hdata : intRenderChars x = ['n', 'u', 'l', 'l'] := congrArg String.data h
  exact absurd hdata (intRenderChars_ne_null x)

theorem jsonUnmarshal_jsonMarshal (x : Option GoValue) (s : String)
    (h : jsonMarshal x = .ok s) : jsonUnmarshal s = .ok x := by
  match x with
  | none =>
    have hs : s = "null" := by
      have := h
      simp only [jsonMarshal, Except.ok.injEq] at this
      exact this.symm
    simp [jsonUnmarshal, hs]
  | some (.jint n) =>
    have hs : s = intRender n := by
      have := h
      simp only [jsonMarshal, Except.ok.injEq] at this
      exact this.symm
    rw [hs, jsonUnmarshal, if_neg (intRender_ne_null n)]
    have : (intRender n).data = intRenderChars n := rfl
    rw [this, parseIntChars_intRenderChars n]
  | some .chanV =>
    exact absurd h (by simp [jsonMarshal])

/-! ## Producer side: `pkg/queue/queue.go`

`Queue[T]` holds the bound queue name and the payload pointer; `serialize`
discards the `json.Marshal` error (`b, _ := json.Marshal(q.payload)`), so on
an encoding failure it returns the string of the nil byte slice, `""`.
`Dispatch` and `DispatchUnique` push through the `gocraft/work` enqueuer,
modelled below as `Store.enqueue` / `Store.enqueueUnique`. -/

/-- Job envelope as persisted by the store: bound queue name, serialized
payload string, and whether it was enqueued through the unique path (its
uniqueness key is the serialized payload itself). -/
structure Envelope where
  queueName : String
  payload : String
  isUnique : Bool
deriving DecidableEq, Repr

/-- Backing store at the spec's interface boundary: reachability of the
Redis instance plus the ordered collection of pending envelopes. -/
structure Store where
  reachable : Bool
  pending : List Envelope
deriving DecidableEq, Repr

/-- Models the external `gocraft/work` enqueuer push used by `Dispatch`:
append a new envelope, failing exactly on store connectivity failure. -/
def Store.enqueue (st : Store) (queueName payload : String) :
    Except String Store :=
  if st.reachable then
    .ok { st with pending := st.pending ++ [⟨queueName, payload, false⟩] }
  else .error "redis connection refused"

/-- Predicate for a pending unique envelope with the given key in a queue. -/
def Store.hasUnique (st : Store) (queueName key : String) : Bool :=
  st.pending.any fun e => e.isUnique && e.queueName == queueName && e.payload == key

/-- Models the external `gocraft/work` unique enqueuer used by
`DispatchUnique`: with the uniqueness key computed from the serialized
payload, a duplicate of a still-pending unique envelope is a no-op that
returns success; otherwise the envelope is appended. -/
def Store.enqueueUnique (st : Store) (queueName payload : String) :
    Except String Store :=
  if st.reachable then
    if st.hasUnique queueName payload then .ok st
    else .ok { st with pending := st.pending ++ [⟨queueName, payload, true⟩] }
  else .error "redis connection refused"

/-- The producer `Queue[T]` struct: bound queue name and payload pointer
(`WithData` overwrites the pointer; nil until first set). -/
structure GoQueue where
  queueName : String
  payload : Option GoValue
deriving DecidableEq, Repr

/-- The `WithData` setter. -/
def GoQueue.WithData (q : GoQueue) (data : Option GoValue) : GoQueue :=
  { q with payload := data }

/-- The `serialize` method: `b, _ := json.Marshal(q.payload)` followed by
`string(b)` — the marshal error is discarded, and on failure the nil byte
slice stringifies to the empty string. -/
def GoQueue.serialize (q : GoQueue) : String :=
  match jsonMarshal q.payload with
  | .ok b => b
  | .error _ => ""

/-- The `Dispatch` method: push the serialized payload onto the bound queue
through the enqueuer, returning the transformed store or the push error. -/
def GoQueue.Dispatch (q : GoQueue) (st : Store) : Except String Store :=
  st.enqueue q.queueName q.serialize

/-- The `DispatchUnique` method: push through the unique enqueuer, the
uniqueness key being the serialized payload. -/
def GoQueue.DispatchUnique (q : GoQueue) (st : Store) : Except String Store :=
  st.enqueueUnique q.queueName q.serialize

/-- Number of pending unique envelopes carrying the given key in a queue. -/
def Store.uniqueCount (st : Store) (queueName key : String) : Nat :=
  (st.pending.filter fun e =>
    e.isUnique && e.queueName == queueName && e.payload == key).length

/-! ## Worker options: `pkg/queue/options.go` and `NewWorker`

`Options` mirrors the Go struct (all `uint` fields as `Nat`); the functional
option builders mutate one field each, reified as the inductive `OptionFn`
with its `apply` action. `NewWorker` starts from the literal
`Options\x7bMaxFails: 3, MaxConcurrency: 10\x7d` (the other fields at their Go
zero values) and applies the option functions in order. -/

/-- Worker options struct (`Priority`, `MaxFails`, `SkipDead`,
`MaxConcurrency`, `MaxTimeout`). -/
structure Options where
  Priority : Nat
  MaxFails : Nat
  SkipDead : Bool
  MaxConcurrency : Nat
  MaxTimeout : Nat
deriving DecidableEq, Repr

/-- The functional option builders of `options.go`, one constructor per
`With*` function. -/
inductive OptionFn
  | withPriority (n : Nat)
  | withMaxFails (n : Nat)
  | withSkipDead
  | withMaxConcurrency (n : Nat)
  | withMaxTimeout (n : Nat)
deriving DecidableEq, Repr

/-- Action of one option function on the options struct, exactly the field
assignment each `With*` closure performs. -/
def OptionFn.apply : OptionFn → Options → Options
  | .withPriority n, o => { o with Priority := n }
  | .withMaxFails n, o => { o with MaxFails := n }
  | .withSkipDead, o => { o with SkipDead := true }
  | .withMaxConcurrency n, o => { o with MaxConcurrency := n }
  | .withMaxTimeout n, o => { o with MaxTimeout := n }

/-- The literal the `NewWorker` body starts from:
`Options\x7bMaxFails: defaultMaxFails, MaxConcurrency: defaultMaxConcurrency\x7d`
with `defaultMaxFails = 3` and `defaultMaxConcurrency = 10`; the remaining
fields are Go zero values. -/
def defaultWorkerOptions : Options :=
  { Priority := 0, MaxFails := 3, SkipDead := false,
    MaxConcurrency := 10, MaxTimeout := 0 }

/-- The option-resolution loop of `NewWorker`:
`for _, op := range ops \x7b op(options) \x7d`. -/
def resolveOptions (ops : List OptionFn) : Options :=
  ops.foldl (fun o f => f.apply o) defaultWorkerOptions

/-- Worker struct: bound queue name, payload pointer (`new(T)` allocates a
pointer to the zero value of `T`) and the resolved options. The embedded
`work.WorkerPool` handle carries no further state the claims touch. -/
structure Worker where
  queueName : String
  payload : Option GoValue
  options : Options
deriving DecidableEq, Repr

/-- Zero value of the payload universe (what `new(T)` points at). -/
def goZeroValue : GoValue := .jint 0

/-- The `NewWorker` constructor. -/
def NewWorker (queueName : String) (ops : List OptionFn) : Worker :=
  { queueName := queueName
    payload := some goZeroValue
    options := resolveOptions ops }

/-! ## Worker execution: `pkg/queue/worker.go` -/

/-- Context value handed to the handler: either `context.Background()` or a
`context.WithTimeout` child carrying a deadline that many seconds away. -/
inductive Ctx
  | background
  | withTimeout (seconds : Nat)
deriving DecidableEq, Repr

/-- Cancel function paired with the context: the no-op literal `func() \x7b\x7d`,
or the real cancel of the `WithTimeout` context, which releases its timer. -/
inductive CancelFn
  | noop
  | cancelTimeout (seconds : Nat)
deriving DecidableEq, Repr

/-- The `getContext` method: a timeout-bound context (with its cancel) when
`MaxTimeout > 0`, otherwise the background context with a no-op cancel. -/
def Worker.getContext (w : Worker) : Ctx × CancelFn :=
  if w.options.MaxTimeout > 0 then
    (.withTimeout w.options.MaxTimeout, .cancelTimeout w.options.MaxTimeout)
  else (.background, .noop)

/-- The `deserialize` method: `json.Unmarshal([]byte(data), &w.payload)`,
returning either the unmarshal error or the freshly decoded payload pointer. -/
def Worker.deserialize (data : String) : Except String (Option GoValue) :=
  jsonUnmarshal data

/-- Observable record of one run of the job callback registered by
`RunWithContext`: the error value the callback returns to the pool, the
handler invocations it performed (context and decoded payload of each), and
the cancel functions it invoked on the way out (the `defer cancel()`). -/
structure JobRun where
  result : Option String
  handlerCalls : List (Ctx × Option GoValue)
  cancels : List CancelFn
deriving Repr

/-- The job callback `RunWithContext` registers with the pool, for one job
whose stored argument string is `payloadStr`: derive the context, defer its
cancel, reset the payload pointer, deserialize — returning the error as the
handler outcome without calling `f` when that fails — and otherwise hand the
decoded payload to the user handler `f` exactly once. `f` returns `none` for
a nil error. The deferred cancel runs on every return path. -/
def Worker.runJob (w : Worker) (f : Ctx → Option GoValue → Option String)
    (payloadStr : String) : JobRun :=
  let ctxWorker := w.getContext.1
  let cancel := w.getContext.2
  match Worker.deserialize payloadStr with
  | .error err =>
    { result := some err, handlerCalls := [], cancels := [cancel] }
  | .ok v =>
    { result := f ctxWorker v, handlerCalls := [(ctxWorker, v)], cancels := [cancel] }

/-! ## Store connector: `pkg/queue/init.go`

The package-level singletons (`redisPool` guarded by `queueOnce`) are
modelled by an explicit process-state record; environment variables by a
record of their values. `Ping` goes through `instancePool()`, so its effect
on that state is visible in the returned state. -/

/-- Environment variables the queue and redis packages read. -/
structure ProcessEnv where
  REDIS_HOST : String
  REDIS_PORT : String
  REDIS_DB : String
  REDIS_PASSWORD : String
  APP_NAME : String
deriving DecidableEq, Repr

/-- Behaviour of `strconv.Atoi` as used with a discarded error
(`db, _ := strconv.Atoi(...)`): the parsed value, or `0` when parsing fails. -/
def goAtoi (s : String) : Int := (parseIntChars s.data).getD 0

/-- Configuration of the `redigo` pool `newPoolRedis` builds: `Wait: false`
(fail fast when exhausted) and a dial closure over the environment's
host, port, database index and password. -/
structure RedisPoolCfg where
  wait : Bool
  dialHost : String
  dialPort : String
  dialDB : Int
  dialPassword : String
deriving DecidableEq, Repr

/-- The `newPoolRedis` constructor. -/
def newPoolRedis (env : ProcessEnv) : RedisPoolCfg :=
  { wait := false
    dialHost := env.REDIS_HOST
    dialPort := env.REDIS_PORT
    dialDB := goAtoi env.REDIS_DB
    dialPassword := env.REDIS_PASSWORD }

/-- Process-level state of `pkg/queue/init.go`: the `redisPool` singleton
and whether `queueOnce.Do` has already run. -/
structure QueueProcState where
  redisPool : Option RedisPoolCfg
  queueOnceDone : Bool
deriving DecidableEq, Repr

/-- The `instancePool` accessor: on the first call `queueOnce.Do` constructs
the pool and stores it in `redisPool`; afterwards the stored pool is
returned unchanged. Returns the updated process state with the pool. -/
def instancePool (ps : QueueProcState) (env : ProcessEnv) :
    QueueProcState × RedisPoolCfg :=
  if ps.queueOnceDone then (ps, ps.redisPool.getD (newPoolRedis env))
  else
    let pool := newPoolRedis env
    ({ redisPool := some pool, queueOnceDone := true }, pool)

/-- The `Ping` health probe: `_, err := instancePool().Dial()`. The dial
closure opens one connection (`dialOk` says whether the network dial
succeeds); its error is returned, and the state `instancePool` produced is
the process state after the call. -/
def Ping (ps : QueueProcState) (env : ProcessEnv) (dialOk : Bool) :
    QueueProcState × Option String :=
  let (ps1, pool) := instancePool ps env
  (ps1,
    if dialOk then none
    else some ("dial tcp " ++ pool.dialHost ++ ":" ++ pool.dialPort ++ ": connection refused"))

/-! ## Publish/subscribe fan-out: `pkg/observer/observer.go`

`Subject.observers` is a Go map from topic to observer slice, modelled as an
association list preserving the found/not-found distinction of the map
lookup in `Notify`. Each loop iteration spawns a goroutine whose body runs
the observer's `Handle` behind a `recover()` boundary; the embedding records
the list of spawned tasks with the outcome each one's boundary produced. -/

/-- Topic name type of the observer package. -/
abbrev TopicName := String

/-- Outcome of running an observer's `Handle` body: normal return, or a
runtime panic carrying its error value. -/
inductive HandleOutcome
  | ok
  | panicked (msg : String)
deriving DecidableEq, Repr

/-- An observer: its `Name()` and its `Handle` behaviour on a topic and a
data value of type `δ` (the `interface\x7b\x7d` argument). -/
structure ObserverImpl (δ : Type) where
  name : String
  handle : TopicName → δ → HandleOutcome

/-- The `Subject.observers` map, as an association list from topic to the
slice of subscribed observers. -/
def Subject (δ : Type) : Type := List (TopicName × List (ObserverImpl δ))

/-- Map lookup `subject.observers[topic]` with its `found` flag. -/
def lookupTopic {δ : Type} : Subject δ → TopicName → Option (List (ObserverImpl δ))
  | [], _ => none
  | (t', l) :: rest, t => if t' = t then some l else lookupTopic rest t

/-- Map assignment `subject.observers[topic] = l`. -/
def setTopic {δ : Type} : Subject δ → TopicName → List (ObserverImpl δ) → Subject δ
  | [], t, l => [(t, l)]
  | (t', l') :: rest, t, l =>
    if t' = t then (t, l) :: rest else (t', l') :: setTopic rest t l

/-- The `Subscribe` function: unconditionally append the observer to the
topic's slice (`append(subject.observers[topic], observer)`, where a missing
key reads as the empty slice). -/
def Subscribe {δ : Type} (s : Subject δ) (t : TopicName) (o : ObserverImpl δ) :
    Subject δ :=
  setTopic s t ((lookupTopic s t).getD [] ++ [o])

/-- Result of one goroutine spawned by `Notify`: the handler completed, or
it panicked and the deferred `recover()` caught and logged the fault, or — a
case the code never produces — a fault escaped the goroutine's boundary. -/
inductive TaskResult
  | completed (name : String)
  | recovered (name : String) (msg : String)
  | fault (name : String) (msg : String)
deriving DecidableEq, Repr

/-- Body of the goroutine `Notify` spawns for one observer: run `Handle`
behind the deferred `recover()`; a panic is caught and logged
(`slog.Error`), never rethrown. -/
def runGoroutine {δ : Type} (o : ObserverImpl δ) (t : TopicName) (d : δ) :
    TaskResult :=
  match o.handle t d with
  | .ok => .completed o.name
  | .panicked m => .recovered o.name m

/-- The `Notify` function: when the topic is found in the map, spawn one
protected goroutine per subscribed observer (in slice order); otherwise do
nothing. The returned list is the spawned tasks with their outcomes. -/
def Notify {δ : Type} (s : Subject δ) (t : TopicName) (d : δ) : List TaskResult :=
  match lookupTopic s t with
  | some observers => observers.map (fun o => runGoroutine o t d)
  | none => []

/-! ## Redis client singleton: `pkg/redis/redis.go` -/

/-- The `redis.Options` struct of `pkg/redis`. -/
structure ROptions where
  Host : String
  Port : String
  Password : String
  DB : Int
  MaxRetry : Nat
deriving DecidableEq, Repr

/-- The fields of the `go-redis` client that `NewClientRedis` configures. -/
structure RedisClient where
  Addr : String
  Password : String
  DB : Int
  MaxRetries : Nat
deriving DecidableEq, Repr

/-- Process-level state of `pkg/redis`: the `instanceRedis` singleton and
whether `redisOnce.Do` has already run. -/
structure RedisSingleton where
  instanceRedis : Option RedisClient
  redisOnceDone : Bool
deriving DecidableEq, Repr

/-- A Go runtime fault terminating the call that raised it. -/
inductive GoRuntimeError
  | indexOutOfRange (index length : Nat)
deriving DecidableEq, Repr

/-- The `NewClientRedis` constructor over the variadic options slice `ops`.
In the `len(ops) == 0` branch the body executes
`ops[0] = &Options\x7b...\x7d` — an assignment to index `0` of a slice of
length `0`, which is out of bounds and raises a runtime index-out-of-range
fault, so the call never reaches `redisOnce.Do`. With at least one option,
`redisOnce.Do` builds the singleton client from `ops[0]` on first call and
is a no-op afterwards; the client pointer is returned. -/
def NewClientRedis (st : RedisSingleton) (_env : ProcessEnv) (ops : List ROptions) :
    Except GoRuntimeError (RedisSingleton × Option RedisClient) :=
  if ops.length = 0 then
    .error (.indexOutOfRange 0 0)
  else
    let st' :=
      if st.redisOnceDone then st
      else
        let opts := ops.headD ⟨"", "", "", 0, 0⟩
        { instanceRedis := some
            { Addr := opts.Host ++ ":" ++ opts.Port
              Password := opts.Password
              DB := opts.DB
              MaxRetries := opts.MaxRetry }
          redisOnceDone := true }
    .ok (st', st'.instanceRedis)

/-! ## Claims -/

/-- C1, counterexample. The claim says a payload whose encoding fails makes
`Dispatch` return the serialization failure. In the code, `serialize`
discards the `json.Marshal` error, so for a channel-valued payload —
rejected by the encoder — `Dispatch` on a reachable store pushes an envelope
with an empty payload string and returns success, not an error. -/
theorem dispatch_swallows_serialization_error :
    jsonMarshal (some GoValue.chanV) = .error "json: unsupported type: chan"
    ∧ GoQueue.Dispatch ⟨"jobs", some GoValue.chanV⟩ ⟨true, []⟩ =
        .ok ⟨true, [⟨"jobs", "", false⟩]⟩ :=
  ⟨rfl, rfl⟩

/-- C1, amended. `Dispatch` returns an error exactly when the store push
fails (the store is unreachable); a serialization failure is silently
swallowed, and for every payload — encodable or not — on a reachable store
`Dispatch` succeeds, appending an envelope carrying the serialized payload
(the empty string when encoding failed). -/
theorem dispatch_error_iff_unreachable (q : GoQueue) (st : Store) :
    ((∃ e, q.Dispatch st = .error e) ↔ st.reachable = false)
    ∧ (st.reachable = true →
        q.Dispatch st =
          .ok { st with pending := st.pending ++ [⟨q.queueName, q.serialize, false⟩] }) := by
  refine ⟨⟨?_, ?_⟩, ?_⟩
  · rintro ⟨e, he⟩
    cases hb : st.reachable with
    | false => rfl
    | true => simp [GoQueue.Dispatch, Store.enqueue, hb] at he
  · intro h
    exact ⟨"redis connection refused", by simp [GoQueue.Dispatch, Store.enqueue, h]⟩
  · intro h
    simp [GoQueue.Dispatch, Store.enqueue, h]

/-- C1 witness: the amended theorem applied to an encodable payload on a
reachable empty store. -/
theorem dispatch_error_iff_unreachable_witness :
    GoQueue.Dispatch ⟨"jobs", some (GoValue.jint 1)⟩ ⟨true, []⟩ =
      .ok ⟨true, [⟨"jobs", "1", false⟩]⟩ :=
  (dispatch_error_iff_unreachable ⟨"jobs", some (GoValue.jint 1)⟩ ⟨true, []⟩).2 rfl

/-- C2. For a stored payload string that fails to deserialize, the job
callback registered by `RunWithContext` returns the deserialization error as
its outcome and never invokes the user handler; for one that deserializes,
the handler is invoked exactly once with the decoded value (and the derived
context), and its return value is the callback's outcome. -/
theorem runJob_handler_invocation (w : Worker)
    (f : Ctx → Option GoValue → Option String) (s : String) :
    (∀ e, Worker.deserialize s = .error e →
      (w.runJob f s).result = some e ∧ (w.runJob f s).handlerCalls = [])
    ∧ (∀ v, Worker.deserialize s = .ok v →
      (w.runJob f s).handlerCalls = [(w.getContext.1, v)]
        ∧ (w.runJob f s).result = f w.getContext.1 v) := by
  constructor
  · intro e he
    simp [Worker.runJob, he]
  · intro v hv
    simp [Worker.runJob, hv]

/-- C2 witness: the theorem applied to a malformed payload string and to a
well-formed one, on a default worker and a handler returning nil. -/
theorem runJob_handler_invocation_witness :
    ((NewWorker "jobs" []).runJob (fun _ _ => none) "x").handlerCalls = []
    ∧ ((NewWorker "jobs" []).runJob (fun _ _ => none) "1").handlerCalls =
        [(Ctx.background, some (GoValue.jint 1))] := by
  constructor
  · exact ((runJob_handler_invocation (NewWorker "jobs" []) (fun _ _ => none) "x").1
      "invalid character in JSON payload: x" rfl).2
  · exact ((runJob_handler_invocation (NewWorker "jobs" []) (fun _ _ => none) "1").2
      (some (GoValue.jint 1)) rfl).1

/-- C3, counterexample. The round trip is not the identity on the whole
payload type: for the channel-valued payload the encoder fails, `serialize`
swallows the error and returns the empty string, and deserializing the
empty string fails instead of yielding the original value. -/
theorem serialize_roundtrip_fails_unencodable :
    GoQueue.serialize ⟨"jobs", some GoValue.chanV⟩ = ""
    ∧ jsonUnmarshal (GoQueue.serialize ⟨"jobs", some GoValue.chanV⟩) =
        .error "unexpected end of JSON input" :=
  ⟨rfl, rfl⟩

/-- C3, amended. For every payload value whose encoding succeeds (including
the nil payload pointer), deserializing the string produced by `serialize`
succeeds and yields exactly the original value: the encode/decode round trip
is the identity on the encodable part of the payload type. -/
theorem serialize_roundtrip (qn : String) (x : Option GoValue) (s : String)
    (h : jsonMarshal x = .ok s) :
    jsonUnmarshal (GoQueue.serialize ⟨qn, x⟩) = .ok x := by
  have hs : GoQueue.serialize ⟨qn, x⟩ = s := by
    simp [GoQueue.serialize, h]
  rw [hs]
  exact jsonUnmarshal_jsonMarshal x s h

/-- C3 witness: the amended round trip at the payload `42`. -/
theorem serialize_roundtrip_witness :
    jsonUnmarshal (GoQueue.serialize ⟨"jobs", some (GoValue.jint 42)⟩) =
      .ok (some (GoValue.jint 42)) :=
  serialize_roundtrip "jobs" (some (GoValue.jint 42)) "42" rfl

/-- C4. On a reachable store with no pending unique envelope for the key
(the serialized payload), the first `DispatchUnique` succeeds and leaves
exactly one pending envelope with that key, and a second `DispatchUnique`
of the same payload into the same queue is a no-op returning success. -/
theorem dispatchUnique_idempotent (q : GoQueue) (st : Store)
    (hre : st.reachable = true)
    (h0 : st.hasUnique q.queueName q.serialize = false) :
    ∃ st1, q.DispatchUnique st = .ok st1
      ∧ st1.uniqueCount q.queueName q.serialize = 1
      ∧ q.DispatchUnique st1 = .ok st1 := by
  obtain ⟨r, pend⟩ := st
  have hr : r = true := hre
  subst hr
  refine ⟨{ reachable := true, pending := pend ++ [⟨q.queueName, q.serialize, true⟩] },
    ?_, ?_, ?_⟩
  · simp [GoQueue.DispatchUnique, Store.enqueueUnique, h0]
  · have hfilter : (pend.filter fun e =>
        e.isUnique && e.queueName == q.queueName && e.payload == q.serialize) = [] := by
      rw [List.filter_eq_nil_iff]
      intro e he hp
      have : Store.hasUnique ⟨true, pend⟩ q.queueName q.serialize = true :=
        List.any_eq_true.mpr ⟨e, he, hp⟩
      rw [h0] at this
      exact Bool.false_ne_true this
    rw [Store.uniqueCount]
    show (List.filter _ (pend ++ [⟨q.queueName, q.serialize, true⟩])).length = 1
    rw [List.filter_append, hfilter]
    simp
  · have hmem : Store.hasUnique
        ⟨true, pend ++ [⟨q.queueName, q.serialize, true⟩]⟩
        q.queueName q.serialize = true := by
      rw [Store.hasUnique]
      show List.any (pend ++ [⟨q.queueName, q.serialize, true⟩]) _ = true
      rw [List.any_append]
      simp
    simp [GoQueue.DispatchUnique, Store.enqueueUnique, hmem]

/-- C4 witness: the theorem at the payload `7` on a reachable empty store. -/
theorem dispatchUnique_idempotent_witness :
    ∃ st1, GoQueue.DispatchUnique ⟨"jobs", some (GoValue.jint 7)⟩ ⟨true, []⟩ = .ok st1
      ∧ st1.uniqueCount "jobs" "7" = 1
      ∧ GoQueue.DispatchUnique ⟨"jobs", some (GoValue.jint 7)⟩ st1 = .ok st1 :=
  dispatchUnique_idempotent ⟨"jobs", some (GoValue.jint 7)⟩ ⟨true, []⟩ rfl rfl

theorem getLast?_cons_getD {α : Type} (v : α) (l : List α) :
    (v :: l).getLast? = some (l.getLast?.getD v) := by
  induction l generalizing v with
  | nil => rfl
  | cons x xs ih =>
    rw [List.getLast?_cons_cons, ih x]
    simp [ih x]

theorem resolveOptions_proj {α : Type} (p : Options → α) (sel : OptionFn → Option α)
    (hcompat : ∀ (o : OptionFn) (opt : Options),
      p (o.apply opt) = (sel o).getD (p opt)) :
    ∀ (ops : List OptionFn) (init : Options),
      p (ops.foldl (fun o f => f.apply o) init) =
        ((ops.filterMap sel).getLast?).getD (p init) := by
  intro ops
  induction ops with
  | nil => intro init; rfl
  | cons o rest ih =>
    intro init
    show p (rest.foldl _ (o.apply init)) = _
    rw [ih (o.apply init), hcompat o init]
    cases hsel : sel o with
    | none => simp [List.filterMap_cons, hsel]
    | some v =>
      simp only [List.filterMap_cons, hsel]
      rw [getLast?_cons_getD]
      cases hlast : (rest.filterMap sel).getLast? <;> simp [hlast]

/-- C5. With no option functions, `NewWorker` resolves the configuration to
the defaults `MaxFails = 3`, `MaxConcurrency = 10`, `Priority = 0`,
`SkipDead = false`, `MaxTimeout = 0`; and for every list of option
functions, each field of the resolved configuration equals the value of the
last option function setting that field (the last application wins), or its
default when no option sets it. -/
theorem newWorker_options_resolution (qn : String) (ops : List OptionFn) :
    (NewWorker qn []).options =
      { Priority := 0, MaxFails := 3, SkipDead := false,
        MaxConcurrency := 10, MaxTimeout := 0 }
    ∧ (NewWorker qn ops).options.MaxFails =
        ((ops.filterMap fun o => match o with
          | .withMaxFails n => some n | _ => none).getLast?).getD 3
    ∧ (NewWorker qn ops).options.MaxConcurrency =
        ((ops.filterMap fun o => match o with
          | .withMaxConcurrency n => some n | _ => none).getLast?).getD 10
    ∧ (NewWorker qn ops).options.Priority =
        ((ops.filterMap fun o => match o with
          | .withPriority n => some n | _ => none).getLast?).getD 0
    ∧ (NewWorker qn ops).options.SkipDead =
        ((ops.filterMap fun o => match o with
          | .withSkipDead => some true | _ => none).getLast?).getD false
    ∧ (NewWorker qn ops).options.MaxTimeout =
        ((ops.filterMap fun o => match o with
          | .withMaxTimeout n => some n | _ => none).getLast?).getD 0 :=
  ⟨rfl,
    resolveOptions_proj Options.MaxFails _
      (fun o opt => by cases o <;> rfl) ops defaultWorkerOptions,
    resolveOptions_proj Options.MaxConcurrency _
      (fun o opt => by cases o <;> rfl) ops defaultWorkerOptions,
    resolveOptions_proj Options.Priority _
      (fun o opt => by cases o <;> rfl) ops defaultWorkerOptions,
    resolveOptions_proj Options.SkipDead _
      (fun o opt => by cases o <;> rfl) ops defaultWorkerOptions,
    resolveOptions_proj Options.MaxTimeout _
      (fun o opt => by cases o <;> rfl) ops defaultWorkerOptions⟩

/-- C6. The context handed to each handler invocation carries a deadline of
exactly `MaxTimeout` seconds precisely when `MaxTimeout > 0` and is the
unbounded background context when `MaxTimeout = 0`; and the cancel function
paired with the created context is invoked exactly once when the job
callback returns, on every outcome (deserialization failure, handler error
or handler success alike, since the handler `f` and payload string are
universally quantified). -/
theorem getContext_timeout_cancel (w : Worker)
    (f : Ctx → Option GoValue → Option String) (s : String) :
    (w.getContext.1 = Ctx.withTimeout w.options.MaxTimeout ↔ 0 < w.options.MaxTimeout)
    ∧ (w.options.MaxTimeout = 0 → w.getContext.1 = Ctx.background)
    ∧ (w.runJob f s).cancels = [w.getContext.2] := by
  refine ⟨?_, ?_, ?_⟩
  · by_cases h : 0 < w.options.MaxTimeout
    · simp [Worker.getContext, h]
    · simp only [Worker.getContext, if_neg h]
      constructor
      · intro heq
        exact absurd heq (by simp)
      · intro hpos
        exact absurd hpos h
  · intro h
    simp [Worker.getContext, h]
  · rcases hd : Worker.deserialize s with e | v <;>
      simp [Worker.runJob, hd]

/-- C6 witness: the theorem at a worker with `MaxTimeout = 5` (checking the
deadline) and at the default worker (checking the background context), with
the cancel-trace conjunct evaluated on a failing payload. -/
theorem getContext_timeout_cancel_witness :
    (NewWorker "jobs" [OptionFn.withMaxTimeout 5]).getContext.1 = Ctx.withTimeout 5
    ∧ (NewWorker "jobs" []).getContext.1 = Ctx.background
    ∧ ((NewWorker "jobs" []).runJob (fun _ _ => none) "x").cancels = [CancelFn.noop] :=
  ⟨(getContext_timeout_cancel (NewWorker "jobs" [OptionFn.withMaxTimeout 5])
      (fun _ _ => none) "x").1.mpr (by decide),
    (getContext_timeout_cancel (NewWorker "jobs" []) (fun _ _ => none) "x").2.1 rfl,
    (getContext_timeout_cancel (NewWorker "jobs" []) (fun _ _ => none) "x").2.2⟩

/-- C7, counterexample. The first `Ping` of the process does mutate
process-level state: it goes through `instancePool()`, whose `queueOnce.Do`
constructs the `redisPool` singleton and marks the once-flag done, so the
state after the call differs from the uninitialized state before it. -/
theorem ping_first_call_initializes_pool :
    (Ping ⟨none, false⟩ ⟨"localhost", "6379", "0", "", "app"⟩ true).1 =
      ⟨some (newPoolRedis ⟨"localhost", "6379", "0", "", "app"⟩), true⟩
    ∧ (Ping ⟨none, false⟩ ⟨"localhost", "6379", "0", "", "app"⟩ true).1 ≠
        ⟨none, false⟩ :=
  ⟨rfl, by decide⟩

/-- C7, amended. Once the pool singleton is initialized (every call after
the first, i.e. whenever `queueOnce` has fired), `Ping` leaves the
process-level state — the `redisPool` singleton and its once-flag —
unchanged, for both dial outcomes: it only opens a connection and reports
the connectivity error. -/
theorem ping_preserves_initialized_state (ps : QueueProcState) (env : ProcessEnv)
    (dialOk : Bool) (h : ps.queueOnceDone = true) :
    (Ping ps env dialOk).1 = ps := by
  simp [Ping, instancePool, h]

/-- C7 witness: the amended theorem at an already-initialized state. -/
theorem ping_preserves_initialized_state_witness :
    (Ping ⟨some (newPoolRedis ⟨"h", "p", "0", "", "a"⟩), true⟩
        ⟨"h", "p", "0", "", "a"⟩ true).1 =
      ⟨some (newPoolRedis ⟨"h", "p", "0", "", "a"⟩), true⟩ :=
  ping_preserves_initialized_state
    ⟨some (newPoolRedis ⟨"h", "p", "0", "", "a"⟩), true⟩ ⟨"h", "p", "0", "", "a"⟩ true rfl

/-- C8. `Notify` spawns exactly one protected task per observer currently
subscribed to the topic, in subscription order (so each observer's `Handle`
runs exactly once, and each task's outcome depends only on its own
observer); it does nothing when the topic has no entry; and no task result
is an escaped fault — a panic inside `Handle` is caught by the
per-goroutine `recover` boundary and recorded, never propagated to the
caller of `Notify`. -/
theorem notify_spec {δ : Type} (s : Subject δ) (t : TopicName) (d : δ) :
    (lookupTopic s t = none → Notify s t d = [])
    ∧ (∀ observers, lookupTopic s t = some observers →
        Notify s t d = observers.map (fun o => runGoroutine o t d))
    ∧ (∀ r ∈ Notify s t d, ∀ nm msg, r ≠ TaskResult.fault nm msg) := by
  refine ⟨?_, ?_, ?_⟩
  · intro h
    simp [Notify, h]
  · intro observers h
    simp [Notify, h]
  · intro r hr nm msg
    rw [Notify] at hr
    cases hl : lookupTopic s t with
    | none => rw [hl] at hr; simp at hr
    | some observers =>
      rw [hl] at hr
      simp only [List.mem_map] at hr
      obtain ⟨o, _, rfl⟩ := hr
      rw [runGoroutine]
      cases o.handle t d <;> simp

/-- An observer whose `Handle` always panics, used to witness the fault
boundary of `Notify`. -/
def probeObserver : ObserverImpl Nat :=
  { name := "probe", handle := fun _ _ => .panicked "boom" }

/-- C8 witness: after one subscription, `Notify` yields exactly the one
protected task, and the panicking handler is recovered, not propagated. -/
theorem notify_spec_witness :
    Notify (Subscribe ([] : Subject Nat) "news" probeObserver) "news" 3 =
      [TaskResult.recovered "probe" "boom"] :=
  ((notify_spec (Subscribe ([] : Subject Nat) "news" probeObserver) "news" 3).2.1
    [probeObserver] rfl).trans rfl

/-- C9. Evaluation of the code at the failing input: the zero-argument call
`NewClientRedis()` enters the `len(ops) == 0` branch, whose assignment
`ops[0] = &Options\x7b...\x7d` writes index `0` of a slice of length `0` —
out of bounds — so the call faults with an index-out-of-range runtime error
instead of completing and returning the environment-configured singleton
(which the package's own test `TestNewClientRedis_WithEnvVars` expects). -/
theorem newClientRedis_empty_ops_faults :
    NewClientRedis ⟨none, false⟩ ⟨"127.0.0.1", "6380", "1", "", "app"⟩ [] =
      .error (GoRuntimeError.indexOutOfRange 0 0) :=
  rfl

/-- Iterated subscription of the same observer to the same topic. -/
def subscribeN {δ : Type} (t : TopicName) (o : ObserverImpl δ) : Nat → Subject δ
  | 0 => []
  | n + 1 => Subscribe (subscribeN t o n) t o

theorem subscribeN_shape {δ : Type} (t : TopicName) (o : ObserverImpl δ) :
    ∀ n : Nat, subscribeN t o (n + 1) = [(t, List.replicate (n + 1) o)] := by
  intro n
  induction n with
  | zero => rfl
  | succ m ih =>
    show Subscribe (subscribeN t o (m + 1)) t o = _
    rw [ih]
    show setTopic [(t, List.replicate (m + 1) o)] t
        ((lookupTopic [(t, List.replicate (m + 1) o)] t).getD [] ++ [o]) = _
    rw [lookupTopic, if_pos rfl, setTopic, if_pos rfl]
    rw [Option.getD_some, ← List.replicate_succ' (m + 1) o]

/-- C10. `Subscribe` appends unconditionally and never deduplicates:
subscribing the same observer to the same topic `n` times (starting from an
empty subject) makes one `Notify` on that topic spawn that observer's
handler exactly `n` times; in particular two subscriptions yield two
invocations, so `Subscribe` is not idempotent. -/
theorem subscribe_duplicates_multiply {δ : Type} (t : TopicName)
    (o : ObserverImpl δ) (d : δ) (n : Nat) :
    Notify (subscribeN t o n) t d = List.replicate n (runGoroutine o t d) := by
  cases n with
  | zero => rfl
  | succ m =>
    rw [subscribeN_shape t o m, Notify]
    rw [show lookupTopic [(t, List.replicate (m + 1) o)] t =
        some (List.replicate (m + 1) o) from by rw [lookupTopic, if_pos rfl]]
    exact List.map_replicate ..
